import Mathlib

/-!
Verification of the moleco core: a shallow embedding in Lean 4 of the
tokenizer (src/tokenize.rs), the content model, the tree combiner and the
width/bar-layout calculators (src/layouts.rs), together with theorems
settling the specification claims.

Modelling conventions:
* Rust `usize` is modelled as `Nat`, `isize` as `Int` (the program never
  relies on machine-width overflow in the modelled code paths).
* Rust `f32` values appearing in the width calculation are modelled exactly
  as `ℚ`; every operation the claims touch (casts from integers, addition,
  subtraction, multiplication, division by nonzero values) is exact in f32
  only up to rounding, and the claims under study are about the structure of
  the computation, not float rounding.  Division by zero (f32 `inf`) does
  not occur under the hypotheses of any theorem below.
* Rust `panic!` / `unreachable!` / out-of-bounds indexing are modelled as a
  dedicated error type `Defect` threaded through `Except`: these are the
  process-terminating failure channel, distinct from the `Result`-typed
  errors that the parsing functions return.
* Error payloads (the formatted diagnostic strings Rust builds with
  `format!`) are modelled by carrying the offending payload / the relevant
  counts, not the rendered message text.
-/

instance {ε α : Type} [DecidableEq ε] [DecidableEq α] : DecidableEq (Except ε α) := fun x y =>
  match x, y with
  | .ok a, .ok b =>
    if h : a = b then isTrue (by rw [h]) else isFalse (fun hh => h (Except.ok.inj hh))
  | .error a, .error b =>
    if h : a = b then isTrue (by rw [h]) else isFalse (fun hh => h (Except.error.inj hh))
  | .ok _, .error _ => isFalse (fun hh => Except.noConfusion hh)
  | .error _, .ok _ => isFalse (fun hh => Except.noConfusion hh)

namespace Moleco

/-- Concentration kinds, from `enum Concentration` in src/tokenize.rs. -/
inductive Concentration where
  | PP | WV | WF | RF | MF | VP | MR | MB
deriving DecidableEq, Repr

/-- Capacity classification, from `enum Capacity` in src/tokenize.rs. -/
inductive Capacity where
  | Absolute (n : Nat)
  | Relative
  | Unestimated
deriving DecidableEq, Repr

/-- A parsed concentration token, from `struct Content` in src/tokenize.rs. -/
structure Content where
  value : Nat
  concentration : Concentration
  magnitude : Int
deriving DecidableEq, Repr

/-- The process-terminating failures (`panic!` / `unreachable!` / slice
index out of bounds) of the width-calculation code in src/layouts.rs and
src/tokenize.rs, modelled as explicit values. -/
inductive Defect where
  /-- `panic!("Different concentrations in one mixture, ...")`,
  src/layouts.rs lines 730-735; carries `seen_concentrations`. -/
  | mixedConcentrations (seen : List Concentration)
  /-- `seen_concentrations[0]` on an empty vector, src/layouts.rs line 737. -/
  | noConcentration
  /-- `magnitudes.iter().min().unwrap()` on an empty vector,
  src/layouts.rs line 746 (unreachable given `noConcentration` fires first). -/
  | emptyMagnitudes
  /-- `unreachable!("Calculating size at higher magnitude is blocked")`,
  src/tokenize.rs line 246. -/
  | higherMagnitude
  /-- `unreachable!("Magnitude too big")` in `calculate_capacity`,
  src/tokenize.rs lines 266 and 272. -/
  | magnitudeTooBig
  /-- `panic!("Unknown case")`, src/layouts.rs line 796. -/
  | unknownCase
deriving DecidableEq, Repr

/-- `Content::value_at_magnitude`, src/tokenize.rs lines 237-250. -/
def Content.value_at_magnitude (c : Content) (magnitude : Int) : Except Defect Nat :=
  if magnitude = c.magnitude then
    .ok c.value
  else if magnitude > c.magnitude then
    .error .higherMagnitude
  else
    .ok (c.value * 10 ^ (c.magnitude - magnitude).toNat)

/-- `Content::calculate_capacity`, src/tokenize.rs lines 262-279. -/
def Content.calculate_capacity (concentration : Concentration) (magnitude : Int) :
    Except Defect Capacity :=
  match concentration with
  | .PP | .MF =>
    if magnitude > 1 then .error .magnitudeTooBig
    else .ok (.Absolute (10 ^ (-(magnitude - 2)).toNat))
  | .WV | .WF | .RF =>
    if magnitude > -1 then .error .magnitudeTooBig
    else .ok (.Absolute (10 ^ (-magnitude).toNat))
  | .VP => .ok .Relative
  | .MR | .MB => .ok .Unestimated

/-- `Content::maximum_viable_magnitude`, src/tokenize.rs lines 284-291. -/
def Content.maximum_viable_magnitude (concentration : Concentration) : Option Int :=
  match concentration with
  | .PP | .MF => some 1
  | .WV | .WF | .RF => some (-1)
  | .MR | .MB => some 0
  | .VP => none

/-! ## Payload parsing (`split_payload`, src/tokenize.rs lines 294-348) -/

/-- Errors returned (as `Err(String)`) by `split_payload` /
`Content::from_str`; each carries the payload the Rust message embeds. -/
inductive ParseError where
  | invalidInfix (payload : List Char)
  | tooManyParts (payload : List Char)
  | invalidValue (payload : List Char)
deriving DecidableEq, Repr

/-- Rust `str::starts_with` on character lists. -/
def starts_with : List Char → List Char → Bool
  | _, [] => true
  | [], _ :: _ => false
  | c :: r, p :: q => c = p && starts_with r q

/-- Rust `str::contains` (substring occurrence) on character lists. -/
def contains_sub : List Char → List Char → Bool
  | [], pat => pat.isEmpty
  | c :: r, pat => starts_with (c :: r) pat || contains_sub r pat

/-- Worker for `split_on`; `fuel` dominates the input length, each step
consumes at least one character.  Mirrors Rust `str::split` splitting on
every non-overlapping occurrence of the separator, left to right. -/
def split_on_go (fuel : Nat) (s0 : Char) (sr : List Char) (l : List Char)
    (acc : List Char) : List (List Char) :=
  match fuel, l with
  | _, [] => [acc.reverse]
  | 0, rest => [acc.reverse ++ rest]
  | fuel + 1, c :: rest =>
    if starts_with (c :: rest) (s0 :: sr) then
      acc.reverse :: split_on_go fuel s0 sr ((c :: rest).drop (sr.length + 1)) []
    else
      split_on_go fuel s0 sr rest (c :: acc)

/-- Rust `str::split(sep).collect::<Vec<_>>()` on character lists; the
separators used by `split_payload` are never empty. -/
def split_on (sep : List Char) (l : List Char) : List (List Char) :=
  match sep with
  | [] => [l]
  | s0 :: sr => split_on_go l.length s0 sr l []

/-- Decimal digits to the number they denote, most significant first. -/
def digits_to_nat (l : List Char) : Nat :=
  l.foldl (fun a c => 10 * a + (c.toNat - '0'.toNat)) 0

/-- Rust `str::parse::<usize>()`: optional leading `+`, then one or more
ascii digits (overflow is not modelled; values stay in `Nat`). -/
def parse_usize (l : List Char) : Option Nat :=
  let l := if l.head? = some '+' then l.tail else l
  if l.isEmpty then none
  else if l.all Char.isDigit then some (digits_to_nat l)
  else none

/-- Rust `str::parse::<isize>()`: optional sign, then one or more digits. -/
def parse_isize (l : List Char) : Option Int :=
  match l with
  | '-' :: r => (parse_usize ('+' :: r)).map (fun n => -(n : Int))
  | l => (parse_usize l).map (fun n => (n : Int))

/-- The `value` computation of `split_payload` (the `match chunks[0]`
block, src/tokenize.rs lines 321-343).  `payload` is the full payload the
Rust error messages embed. -/
def parse_value (payload a : List Char) : Except ParseError Nat :=
  if starts_with a ['<', '='] || starts_with a ['>', '='] then
    match parse_usize (a.drop 2) with
    | some v => .ok v
    | none => .error (.invalidValue payload)
  else if starts_with a ['~'] || starts_with a ['<'] || starts_with a ['>'] then
    match parse_usize (a.drop 1) with
    | some v => .ok v
    | none => .error (.invalidValue payload)
  else if contains_sub a [':'] then
    match split_on [':'] a with
    | [p0, p1] =>
      match parse_usize p0 with
      | none => .error (.invalidValue payload)
      | some _ =>
        match parse_usize p1 with
        | some v => .ok v
        | none => .error (.invalidValue payload)
    | _ => .error (.tooManyParts payload)
  else
    match parse_usize a with
    | some v => .ok v
    | none => .error (.invalidValue payload)

/-- The infix table of `split_payload`, tried in source order. -/
def infix_table : List (Concentration × List Char) :=
  [(.PP, ['p', 'p']), (.WF, ['w', 'f']), (.WV, ['w', 'v']), (.RF, ['r', 'f']),
   (.MF, ['m', 'f']), (.VP, ['v', 'p']), (.MR, ['m', 'r']), (.MB, ['m', 'b'])]

/-- First infix of `infix_table` occurring in the payload. -/
def find_infix (payload : List Char) :
    List (Concentration × List Char) → Option (Concentration × List Char)
  | [] => none
  | (k, sep) :: rest =>
    if contains_sub payload sep then some (k, sep) else find_infix payload rest

/-- `split_payload`, src/tokenize.rs lines 294-348. -/
def split_payload (payload : List Char) : Except ParseError (Nat × Concentration × Int) := do
  let (concentration, sep) ←
    match find_infix payload infix_table with
    | some p => Except.ok p
    | none => Except.error (.invalidInfix payload)
  let chunks := split_on sep payload
  match chunks with
  | [c0, c1] => do
    let value ← parse_value payload c0
    let magnitude ←
      match parse_isize c1 with
      | some m => Except.ok m
      | none => Except.error (.invalidValue payload)
    pure (value, concentration, magnitude)
  | _ => Except.error (.tooManyParts payload)

/-- `Content::from_str`, src/tokenize.rs lines 228-235. -/
def Content.from_str (payload : String) : Except ParseError Content :=
  match split_payload payload.toList with
  | .ok (value, concentration, magnitude) => .ok ⟨value, concentration, magnitude⟩
  | .error e => .error e

example : Content.from_str "6pp1" = .ok ⟨6, .PP, 1⟩ := by decide
example : Content.from_str "25wv-2" = .ok ⟨25, .WV, -2⟩ := by decide
example : Content.from_str "10:15pp0" = .ok ⟨15, .PP, 0⟩ := by decide
example : (Content.mk 6 .PP 1).value_at_magnitude 0 = .ok 60 := by decide

/-! ## Tokenizer (`tokenize_string` / `parse_group`, src/tokenize.rs lines 33-190) -/

/-- Parse-tree components, from `enum Component` / `struct Group` /
`struct Token` in src/tokenize.rs.  The `group` constructor carries the
fields of the Rust `Group` struct inline. -/
inductive Component where
  | token (value : String)
  | group (components : List Component) (value : Option String)
deriving Repr

/-- The Rust `Group` struct (src/tokenize.rs lines 4-8). -/
structure Group where
  components : List Component
  value : Option String
deriving Repr

/-- Errors returned by `tokenize_string`; message payloads omitted. -/
inductive TokError where
  /-- empty input (src/tokenize.rs line 35) -/
  | empty
  /-- wrong first character (src/tokenize.rs lines 39-44) -/
  | wrongFirst
  /-- unmatched parentheses (src/tokenize.rs lines 78-79 and 87-88) -/
  | unmatched
deriving DecidableEq, Repr

/-- The brace-matching scan of `tokenize_string` (src/tokenize.rs lines
62-89): walks the payload maintaining the nesting level, failing if the
level ever goes negative or does not end at zero, and returns whether the
first group covers the entire payload. -/
def scan : List Char → Int → Bool → Except TokError Bool
  | [], level, covering => if level ≠ 0 then .error .unmatched else .ok covering
  | c :: rest, level, covering =>
    let level := if c = '{' then level + 1 else if c = '}' then level - 1 else level
    let decreased := c = '}'
    if level < 0 then .error .unmatched
    else scan rest level
      (if decreased && level = 0 && !rest.isEmpty then false else covering)

/-- Whether the post-prefix payload starts with a brace, ends with a brace
and the first group covers the entire payload — the condition under which
`tokenize_string` strips the redundant outer wrapper (src/tokenize.rs
lines 47-94); also performs the brace-matching validation. -/
def check_wrapper (l : List Char) : Except TokError Bool := do
  let covering ← scan l 0 true
  let ends_with_paren := l.getLast? = some '}'
  let starts_with_paren := l.head? = some '{'
  pure (starts_with_paren && ends_with_paren && covering)

/-- The initial `iter.peek()` match of `parse_group` (src/tokenize.rs
lines 104-113): an empty body or a body starting with `&` seeds the
component list with one explicit empty token. -/
def group_seed : List Char → List Component
  | [] => [.token ""]
  | '&' :: _ => [.token ""]
  | _ => []

/-- The main loop of `parse_group` (src/tokenize.rs lines 115-189),
modelled with explicit fuel (the top-level fuel dominates the recursion
depth, so the zero-fuel fallback is never reached from `tokenize_string`).
`comps` is the accumulated component list, `current` the pending token
characters, and the result carries the unconsumed rest of the input (the
shared iterator state of the Rust code). -/
def parse_group_go (fuel : Nat) (comps : List Component) (current : List Char) :
    List Char → Group × List Char
  | [] =>
    (⟨comps ++ (if current.isEmpty then [] else [.token current.asString]), none⟩, [])
  | c :: rest =>
    match fuel with
    | 0 => (⟨comps, none⟩, c :: rest)
    | fuel + 1 =>
      if c = '&' then
        let comps := comps ++ (if current.isEmpty then [] else [.token current.asString])
        let comps :=
          match rest with
          | [] => comps ++ [.token ""]
          | '}' :: _ => comps ++ [.token ""]
          | '&' :: _ => comps ++ [.token ""]
          | _ => comps
        parse_group_go fuel comps [] rest
      else if c = '{' then
        let (g, rest) := parse_group_go fuel (group_seed rest) [] rest
        parse_group_go fuel (comps ++ [.group g.components g.value]) current rest
      else if c = '}' then
        let comps := comps ++ (if current.isEmpty then [] else [.token current.asString])
        let value_chars := rest.takeWhile (fun ch => ch ≠ '}' && ch ≠ '&')
        let rest := rest.drop value_chars.length
        (⟨comps, if value_chars.isEmpty then none else some value_chars.asString⟩, rest)
      else
        parse_group_go fuel comps (current ++ [c]) rest

/-- `parse_group` (src/tokenize.rs lines 100-190). -/
def parse_group (fuel : Nat) (input : List Char) : Group × List Char :=
  parse_group_go fuel (group_seed input) [] input

/-- `tokenize_string`, src/tokenize.rs lines 33-98. -/
def tokenize_string (input : List Char) (start : Char) : Except TokError Group :=
  match input with
  | [] => .error .empty
  | c :: new_input =>
    if c ≠ start then .error .wrongFirst
    else do
      let strip ← check_wrapper new_input
      let final := if strip then (new_input.drop 1).dropLast else new_input
      pure (parse_group (2 * final.length + 2) final).1

/-! ## Tree combiner (src/tokenize.rs lines 350-460)

The combined tree type: `enum Ingredient { Mixture(Mixture), Substance(Substance) }`
with `Mixture { ingredients, content }` and `Substance { index, content }`.
(The version of src/layouts.rs in this repository names the first variant
`Compound` with the same fields.) -/

/-- The validated ingredient tree. -/
inductive Ingredient where
  | mixture (ingredients : List Ingredient) (content : Option Content)
  | substance (index : Option String) (content : Option Content)
deriving Repr

/-- Failures of `combine_groups` / `combine_components` / `create_substance`
(all `Err(String)` in Rust; the constructors record which message was
built, with the formatted group renderings omitted). -/
inductive CombineError where
  /-- "Mismatched components, found {} and {} items", src/tokenize.rs lines 398-411. -/
  | mismatchedCount (n1 n2 : Nat)
  /-- "Mismatched components, found mixture and substance on corresponding
  positions", src/tokenize.rs line 421. -/
  | mismatchedKind
  /-- a `Content::from_str` failure propagated by `?`. -/
  | content (e : ParseError)
deriving DecidableEq, Repr

/-- `create_substance`, src/tokenize.rs lines 449-460. -/
def create_substance (indexing concentration : String) :
    Except CombineError Ingredient := do
  let index := if indexing = "" then none else some indexing
  let content ←
    if concentration = "" then pure none
    else
      match Content.from_str concentration with
      | .ok c => pure (some c)
      | .error e => Except.error (.content e)
  pure (.substance index content)

mutual

/-- `combine_groups`, src/tokenize.rs lines 380-391: ingredients are
combined first, then the concentration group's value string is parsed. -/
def combine_groups (indexing_group concentration_group : Group) :
    Except CombineError Ingredient := do
  let ingredients ← combine_components indexing_group.components concentration_group.components
  let content ←
    match concentration_group.value with
    | some v =>
      match Content.from_str v with
      | .ok c => pure (some c)
      | .error e => Except.error (.content e)
    | none => pure none
  pure (.mixture ingredients content)
termination_by (sizeOf indexing_group, 2)
decreasing_by
  apply Prod.Lex.left
  cases indexing_group
  simp
  omega

/-- `combine_components`, src/tokenize.rs lines 393-425: the length check,
then the positional zip. -/
def combine_components (indexing_components concentration_components : List Component) :
    Except CombineError (List Ingredient) :=
  if indexing_components.length ≠ concentration_components.length then
    Except.error (.mismatchedCount indexing_components.length concentration_components.length)
  else
    combine_pairs indexing_components concentration_components
termination_by (sizeOf indexing_components, 1)
decreasing_by
  apply Prod.Lex.right
  decide

/-- The `for i in 0..len` loop body of `combine_components` (src/tokenize.rs
lines 413-423); only called with lists of equal length. -/
def combine_pairs : List Component → List Component → Except CombineError (List Ingredient)
  | [], _ => Except.ok []
  | _ :: _, [] => Except.ok []
  | c1 :: r1, c2 :: r2 => do
    let head ←
      match c1, c2 with
      | .token t1, .token t2 => create_substance t1 t2
      | .group g1 v1, .group g2 v2 => combine_groups ⟨g1, v1⟩ ⟨g2, v2⟩
      | _, _ => Except.error .mismatchedKind
    let rest ← combine_pairs r1 r2
    pure (head :: rest)
termination_by l1 _ => (sizeOf l1, 0)
decreasing_by
  all_goals simp_wf
  all_goals apply Prod.Lex.left
  all_goals (try simp)
  all_goals omega

end

/-- Shape equality of component lists, as the round-trip claim states it:
same component count at every level, and Token-vs-Group kinds agreeing at
every corresponding position (attached values are not part of the shape). -/
def same_shape_l : List Component → List Component → Bool
  | [], [] => true
  | .token _ :: r1, .token _ :: r2 => same_shape_l r1 r2
  | .group c1 _ :: r1, .group c2 _ :: r2 => same_shape_l c1 c2 && same_shape_l r1 r2
  | _, _ => false

/-- Shape equality of two groups. -/
def same_shape_g (g1 g2 : Group) : Bool :=
  same_shape_l g1.components g2.components

/-- Whether a combine failure is one of the two structure-mismatch
messages (as opposed to a propagated content-format failure). -/
def is_structure_mismatch : CombineError → Bool
  | .mismatchedCount _ _ => true
  | .mismatchedKind => true
  | .content _ => false

/-! ## Width calculator (`Picture::calculate_widths`, src/layouts.rs lines 695-835)

Each helper below names one pass of the Rust function over the component
list; `calculate_widths` composes them exactly as the source does.  The
f32 widths are modelled as exact rationals. -/

/-- The content attached to an ingredient (both match arms of the
collection loops treat mixtures and substances identically). -/
def content_of : Ingredient → Option Content
  | .mixture _ content => content
  | .substance _ content => content

/-- The concentrations of the children that carry content, in order
(first collection loop, src/layouts.rs lines 700-721). -/
def concentrations_of (components : List Ingredient) : List Concentration :=
  (components.filterMap content_of).map Content.concentration

/-- The magnitudes of the children that carry content, in order. -/
def magnitudes_of (components : List Ingredient) : List Int :=
  (components.filterMap content_of).map Content.magnitude

/-- The number of children with no content (`unknown`). -/
def unknown_count (components : List Ingredient) : Nat :=
  components.countP (fun c => (content_of c).isNone)

/-- First-occurrence deduplication (the `seen_concentrations` loop,
src/layouts.rs lines 723-729). -/
def dedup_first (l : List Concentration) : List Concentration :=
  l.foldl (fun acc c => if acc.contains c then acc else acc ++ [c]) []

/-- `seen_concentrations` for one mixture level. -/
def seen_concentrations (components : List Ingredient) : List Concentration :=
  dedup_first (concentrations_of components)

/-- The minimum magnitude: the observed magnitudes with the kind's
`maximum_viable_magnitude` appended (src/layouts.rs lines 739-746). -/
def min_magnitude (components : List Ingredient) (concentration : Concentration) : Option Int :=
  (magnitudes_of components ++ (Content.maximum_viable_magnitude concentration).toList).min?

/-- The values of the children with content at the chosen magnitude, and
their sum (src/layouts.rs lines 748-761). -/
def sum_values (components : List Ingredient) (magnitude : Int) : Except Defect Nat := do
  let values ← (components.filterMap content_of).mapM (Content.value_at_magnitude · magnitude)
  pure values.sum

/-- The capacity match (src/layouts.rs lines 762-771): the capacity value
used downstream, and whether the level's own capacity is unestimated. -/
def capacity_value (concentration : Concentration) (magnitude : Int) (sum : Nat) :
    Except Defect (Nat × Bool) := do
  match ← Content.calculate_capacity concentration magnitude with
  | .Absolute capacity => pure (capacity, false)
  | .Relative => pure (sum, false)
  | .Unestimated => pure (sum, true)

/-- The four arms of the `match (unknown, sum, capacity)` case analysis
(src/layouts.rs lines 779-798). -/
inductive WidthCase where
  | overSubscribed
  | singleUnknown
  | syntheticRemainder
  | unknownCase
deriving DecidableEq, Repr

/-- Which arm of the `match (unknown, sum, capacity)` analysis fires
(guards in source order, src/layouts.rs lines 779-798). -/
def classify_case (unknown sum capacity : Nat) : WidthCase :=
  if sum ≥ capacity then .overSubscribed
  else if unknown = 1 ∧ sum < capacity then .singleUnknown
  else if unknown ≠ 1 ∧ sum < capacity then .syntheticRemainder
  else .unknownCase

/-- `default_width` as assigned by the case analysis: the single-unknown
arm sets `(capacity - sum) / unknown`, every other arm leaves `0`. -/
def default_width_of (unknown sum capacity : Nat) : ℚ :=
  match classify_case unknown sum capacity with
  | .singleUnknown => ((capacity - sum : Nat) : ℚ) / (unknown : ℚ)
  | _ => 0

/-- The synthetic empty-index entry pushed by the `u ≠ 1 and s < c` arm
(src/layouts.rs lines 792-794). -/
def synthetic_of (unknown sum capacity : Nat) : List (String × ℚ) :=
  match classify_case unknown sum capacity with
  | .syntheticRemainder => [("", ((capacity - sum : Nat) : ℚ) / (sum : ℚ))]
  | _ => []

/-- All per-level quantities `calculate_widths` computes before its final
recursive loop. -/
structure LevelParams where
  concentration : Concentration
  minMag : Int
  sum : Nat
  capacity : Nat
  unestimated : Bool
  defaultWidth : ℚ
  synthetic : List (String × ℚ)
deriving DecidableEq, Repr

/-- The non-recursive prefix of `calculate_widths` (src/layouts.rs lines
695-798): concentration collection and uniqueness check, minimum
magnitude, value sum, capacity, and the `(unknown, sum, capacity)` case
analysis. -/
def level_params (components : List Ingredient) : Except Defect LevelParams := do
  let seen := seen_concentrations components
  if seen.length > 1 then Except.error (.mixedConcentrations seen)
  else
    let concentration ←
      match seen with
      | [] => Except.error Defect.noConcentration
      | k :: _ => Except.ok k
    let minMag ←
      match min_magnitude components concentration with
      | none => Except.error Defect.emptyMagnitudes
      | some m => Except.ok m
    let sum ← sum_values components minMag
    let (capacity, unestimated) ← capacity_value concentration minMag sum
    match classify_case (unknown_count components) sum capacity with
    | .unknownCase => Except.error Defect.unknownCase
    | _ =>
      pure ⟨concentration, minMag, sum, capacity, unestimated,
        default_width_of (unknown_count components) sum capacity,
        synthetic_of (unknown_count components) sum capacity⟩

/-- The result of `calculate_widths` (`struct WidthsResult`,
src/layouts.rs lines 10-13). -/
structure WidthsResult where
  widths : List (String × ℚ)
  unestimated_capacity : Bool
deriving DecidableEq, Repr

mutual

/-- `Picture::calculate_widths`, src/layouts.rs lines 695-835. -/
def calculate_widths (components : List Ingredient) : Except Defect WidthsResult := do
  let p ← level_params components
  let (entries, child_unestimated) ← emit_components p.defaultWidth p.sum p.minMag components
  pure ⟨p.synthetic ++ entries, p.unestimated || child_unestimated⟩
termination_by (sizeOf components, 2)
decreasing_by
  all_goals apply Prod.Lex.right
  all_goals decide

/-- The final recursive loop of `calculate_widths` (src/layouts.rs lines
801-830), emitting entries for each component in order. -/
def emit_components (default_width : ℚ) (sum : Nat) (minMag : Int) :
    List Ingredient → Except Defect (List (String × ℚ) × Bool)
  | [] => Except.ok ([], false)
  | component :: rest => do
    let (entries, u1) ← emit_one default_width sum minMag component
    let (entries_rest, u2) ← emit_components default_width sum minMag rest
    pure (entries ++ entries_rest, u1 || u2)
termination_by l => (sizeOf l, 1)
decreasing_by
  all_goals simp_wf
  all_goals apply Prod.Lex.left
  all_goals (try simp)
  all_goals omega

/-- One iteration of the final loop: a mixture child recurses and scales
the flattened child widths by its own share, a substance child emits
`(index-or-empty, size / sum)` directly. -/
def emit_one (default_width : ℚ) (sum : Nat) (minMag : Int) :
    Ingredient → Except Defect (List (String × ℚ) × Bool)
  | .mixture ingredients content => do
    let size ←
      match content with
      | some c => do pure ((← c.value_at_magnitude minMag : Nat) : ℚ)
      | none => pure default_width
    let size := size / (sum : ℚ)
    let calculated ← calculate_widths ingredients
    pure (calculated.widths.map (fun p => (p.1, p.2 * size)), calculated.unestimated_capacity)
  | .substance index content => do
    let size ←
      match content with
      | some c => do pure ((← c.value_at_magnitude minMag : Nat) : ℚ)
      | none => pure default_width
    pure ([(index.getD "", size / (sum : ℚ))], false)
termination_by i => (sizeOf i, 0)
decreasing_by
  simp_wf
  apply Prod.Lex.left
  try simp
  omega

end

/-! ## Bar layout engine (`Picture::draw_components`, src/layouts.rs lines 466-546)

The pixel-width pipeline: drop zero-width entries, rescale by repeated ×10
until the smallest weight reaches 10, append the synthetic unestimated
entry, take logarithms, truncate the proportional allocation to integers,
and correct the rounding drift one pixel at a time. -/

/-- One extra zero-entry filter pass (src/layouts.rs lines 481-491):
the kept `(index, width)` pairs, in order. -/
def kept_entries (widths : List (String × ℚ)) : List (String × ℚ) :=
  widths.filter (fun p => ¬(p.2 = 0))

/-- Whether an empty-index (unknown substance) entry survives the filter. -/
def unknown_substance_present (widths : List (String × ℚ)) : Bool :=
  (kept_entries widths).any (fun p => p.1 = "")

/-- The `while min < 10 { sizes *= 10 }` loop (src/layouts.rs lines
494-501), with explicit fuel.  For a nonempty all-positive size list the
fuel chosen by `rescale` dominates the number of iterations, so the
fuel-exhaustion fallback is never reached there; for a list whose minimum
is not positive the Rust loop never terminates. -/
def rescale_go (fuel : Nat) (sizes : List ℚ) : List ℚ :=
  match fuel with
  | 0 => sizes
  | fuel + 1 =>
    match sizes.min? with
    | none => sizes
    | some m => if m < 10 then rescale_go fuel (sizes.map (fun s => s * 10)) else sizes

/-- Fuel bound for `rescale_go`: a positive rational `q` satisfies
`q ≥ 1 / q.den`, so `q.den + 2` decades always suffice. -/
def rescale_fuel (sizes : List ℚ) : Nat :=
  2 + sizes.foldl (fun a q => max a q.den) 1

/-- The rescaling loop of `draw_components`. -/
def rescale (sizes : List ℚ) : List ℚ :=
  rescale_go (rescale_fuel sizes) sizes

/-- Steps 1-2 of the bar layout as the source orders them (src/layouts.rs
lines 477-510): filter zero entries, rescale, and only then append the
synthetic fixed-weight (`4f32`, "chosen by fair dice roll") empty-index
entry when the capacity is unestimated and no unknown entry is present.
Returns the index list and the size list the logarithm step consumes. -/
def entry_sizes (widths : List (String × ℚ)) (unestimated_capacity : Bool) :
    List String × List ℚ :=
  let kept := kept_entries widths
  let indices := kept.map Prod.fst
  let sizes := rescale (kept.map Prod.snd)
  if unestimated_capacity && !unknown_substance_present widths then
    (indices ++ [""], sizes ++ [4])
  else
    (indices, sizes)

/-- Modelled from the spec: the same two steps in the order §4.6 states
them — append the synthetic entry in step 1, then rescale in step 2, so
that the synthetic weight participates in the ×10 rescaling.  Used only to
compare against `entry_sizes`, which follows the source. -/
def entry_sizes_spec_order (widths : List (String × ℚ)) (unestimated_capacity : Bool) :
    List String × List ℚ :=
  let kept := kept_entries widths
  let indices := kept.map Prod.fst
  let sizes := kept.map Prod.snd
  let (indices, sizes) :=
    if unestimated_capacity && !unknown_substance_present widths then
      (indices ++ [""], sizes ++ [4])
    else
      (indices, sizes)
  (indices, rescale sizes)

/-- One pass of the stretching loop (the inner `for` of src/layouts.rs
lines 528-536): add one pixel to each successive segment while budget
remains. -/
def stretch_pass : List Nat → Nat → List Nat × Nat
  | [], d => ([], d)
  | l, 0 => (l, 0)
  | a :: r, d + 1 =>
    let (r2, d2) := stretch_pass r d
    ((a + 1) :: r2, d2)

/-- The outer `while sizes_sum_diff > 0` loop, with fuel (each pass on a
nonempty list consumes at least one unit of budget, so fuel equal to the
initial budget suffices; on an empty list the Rust loop never
terminates). -/
def stretch_go (fuel : Nat) (l : List Nat) (d : Nat) : List Nat :=
  match fuel, d with
  | _, 0 => l
  | 0, _ => l
  | fuel + 1, d + 1 =>
    let (l2, d2) := stretch_pass l (d + 1)
    stretch_go fuel l2 d2

/-- One pass of the shrinking loop (src/layouts.rs lines 538-546); the
Rust `u32` subtraction is modelled by truncated `Nat` subtraction. -/
def shrink_pass : List Nat → Nat → List Nat × Nat
  | [], e => ([], e)
  | l, 0 => (l, 0)
  | a :: r, e + 1 =>
    let (r2, e2) := shrink_pass r e
    ((a - 1) :: r2, e2)

/-- The outer `while sizes_sum_diff < 0` loop, with fuel. -/
def shrink_go (fuel : Nat) (l : List Nat) (e : Nat) : List Nat :=
  match fuel, e with
  | _, 0 => l
  | 0, _ => l
  | fuel + 1, e + 1 =>
    let (l2, e2) := shrink_pass l (e + 1)
    shrink_go fuel l2 e2

/-- The truncated log-proportional allocation (src/layouts.rs lines
520-523): `(s / ln_sum * available_width) as u32` for each (already
logarithmed) weight `s`.  The `as u32` cast truncates; for the nonnegative
values arising here it is the floor. -/
def allocate (available_width : Nat) (ln_sizes : List ℚ) : List Nat :=
  let ln_sum := ln_sizes.sum
  ln_sizes.map (fun s => (⌊s / ln_sum * (available_width : ℚ)⌋).toNat)

/-- The rounding correction (src/layouts.rs lines 525-546): stretch while
the integer sum falls short of the span, shrink while it exceeds it. -/
def correct_sizes (available_width : Nat) (sizes : List Nat) : List Nat :=
  let total := sizes.sum
  if total ≤ available_width then
    stretch_go (available_width - total) sizes (available_width - total)
  else
    shrink_go (total - available_width) sizes (total - available_width)

/-- The complete integer-pixel computation of `draw_components` from the
logarithmed weights: truncated proportional allocation followed by the
one-pixel correction loops. -/
def draw_sizes (available_width : Nat) (ln_sizes : List ℚ) : List Nat :=
  correct_sizes available_width (allocate available_width ln_sizes)

/-! ## Claims -/

/-- C3: for every concentration kind and magnitude within the valid bound,
`calculate_capacity` returns `Absolute(10^(2−m))` for PP and MF when
`m ≤ 1`, `Absolute(10^(−m))` for WV, WF and RF when `m ≤ −1`, `Relative`
for VP at any magnitude, `Unestimated` for MR and MB at any magnitude; in
particular `calculate_capacity(PP, 0) = Absolute(100)`. -/
theorem c3_calculate_capacity (m : Int) :
    (m ≤ 1 → Content.calculate_capacity .PP m = .ok (.Absolute (10 ^ (2 - m).toNat))) ∧
    (m ≤ 1 → Content.calculate_capacity .MF m = .ok (.Absolute (10 ^ (2 - m).toNat))) ∧
    (m ≤ -1 → Content.calculate_capacity .WV m = .ok (.Absolute (10 ^ (-m).toNat))) ∧
    (m ≤ -1 → Content.calculate_capacity .WF m = .ok (.Absolute (10 ^ (-m).toNat))) ∧
    (m ≤ -1 → Content.calculate_capacity .RF m = .ok (.Absolute (10 ^ (-m).toNat))) ∧
    Content.calculate_capacity .VP m = .ok .Relative ∧
    Content.calculate_capacity .MR m = .ok .Unestimated ∧
    Content.calculate_capacity .MB m = .ok .Unestimated ∧
    Content.calculate_capacity .PP 0 = .ok (.Absolute 100) := by
  have harg : -(m - 2) = 2 - m := by ring
  refine ⟨?_, ?_, ?_, ?_, ?_, rfl, rfl, rfl, by decide⟩ <;>
    intro h <;>
    simp only [Content.calculate_capacity] <;>
    rw [if_neg (by omega)] <;>
    (try rw [harg])

/-- Witness for C3 at the concrete magnitude 0. -/
theorem c3_calculate_capacity_witness :
    Content.calculate_capacity .PP 0 = .ok (.Absolute (10 ^ ((2 : Int) - 0).toNat)) :=
  (c3_calculate_capacity 0).1 (by decide)

/-- C4: `value_at_magnitude(target)` returns the stored value when the
target equals the stored magnitude and `value × 10^(M − target)` when the
target is strictly smaller, and the two concrete contents from the claim
evaluate to 60 and 250. -/
theorem c4_value_at_magnitude (c : Content) (target : Int) :
    (target = c.magnitude → c.value_at_magnitude target = .ok c.value) ∧
    (target < c.magnitude →
      c.value_at_magnitude target = .ok (c.value * 10 ^ (c.magnitude - target).toNat)) ∧
    Content.from_str "6pp1" = .ok ⟨6, .PP, 1⟩ ∧
    (Content.mk 6 .PP 1).value_at_magnitude 0 = .ok 60 ∧
    Content.from_str "25wv-2" = .ok ⟨25, .WV, -2⟩ ∧
    (Content.mk 25 .WV (-2)).value_at_magnitude (-3) = .ok 250 := by
  refine ⟨?_, ?_, by decide, by decide, by decide, by decide⟩
  · intro h
    simp [Content.value_at_magnitude, h]
  · intro h
    simp only [Content.value_at_magnitude]
    rw [if_neg (by omega), if_neg (by omega)]

/-- Witness for C4 on the content parsed from "6pp1", queried at
magnitude 0. -/
theorem c4_value_at_magnitude_witness :
    (Content.mk 6 .PP 1).value_at_magnitude 0 = .ok (6 * 10 ^ ((1 : Int) - 0).toNat) :=
  (c4_value_at_magnitude (Content.mk 6 .PP 1) 0).2.1 (by decide)

/-- C10: the final "Unknown case" panic arm of the
`match (unknown, sum, capacity)` analysis in `calculate_widths` is
unreachable: for all nonnegative integers one of the three guards holds. -/
theorem c10_unknown_case_unreachable (unknown sum capacity : Nat) :
    classify_case unknown sum capacity ≠ .unknownCase := by
  unfold classify_case
  split_ifs with h1 h2 h3
  · decide
  · decide
  · decide
  · exfalso
    omega

/-- C5 (amended): whenever more than one distinct concentration kind is
present among the direct children of a level, `calculate_widths` fails by
the `panic!("Different concentrations in one mixture, ...")` defect
carrying the seen kinds — a process-terminating panic, not a typed
`Result` error. -/
theorem c5_mixed_concentrations_panic (components : List Ingredient)
    (h : (seen_concentrations components).length > 1) :
    calculate_widths components =
      .error (.mixedConcentrations (seen_concentrations components)) := by
  have hl : level_params components =
      .error (.mixedConcentrations (seen_concentrations components)) := by
    unfold level_params
    rw [if_pos h]
  rw [calculate_widths]
  rw [hl]
  rfl

/-- Witness for C5 (amended) on a two-substance level mixing PP and WV. -/
theorem c5_mixed_concentrations_panic_witness :
    calculate_widths
      [.substance (some "1") (some ⟨35, .PP, 0⟩), .substance (some "2") (some ⟨25, .WV, -2⟩)] =
      .error (.mixedConcentrations [.PP, .WV]) := by
  have h := c5_mixed_concentrations_panic
    [.substance (some "1") (some ⟨35, .PP, 0⟩), .substance (some "2") (some ⟨25, .WV, -2⟩)]
    (by decide)
  rw [h]
  rfl

/-- C5 counterexample: at this concrete two-kind level the width
calculation's failure is the `Defect` channel (the model of Rust
`panic!`), i.e. the process-terminating panic at src/layouts.rs lines
730-735 — not a typed failure returned to the caller, as the claim
requires.  `calculate_widths` has no `Result`-typed error channel at
all: its only failure type is `Defect`. -/
theorem c5_counterexample :
    calculate_widths
      [.substance (some "3") (some ⟨35, .PP, 0⟩), .substance (some "4") (some ⟨25, .WV, -2⟩)] =
      .error (.mixedConcentrations [.PP, .WV]) ∧
    (Defect.mixedConcentrations [.PP, .WV]) ≠ Defect.noConcentration := by
  constructor
  · have hl : level_params
        [.substance (some "3") (some ⟨35, .PP, 0⟩), .substance (some "4") (some ⟨25, .WV, -2⟩)] =
        .error (.mixedConcentrations [.PP, .WV]) := by decide
    rw [calculate_widths, hl]
    rfl
  · decide

/-- C8 (amended): the synthetic fixed-weight unestimated entry is appended
after the ×10 rescaling loop, so it does not participate in the rescaling
and enters the logarithm step with its fixed nominal weight 4. -/
theorem c8_synthetic_after_rescale (widths : List (String × ℚ))
    (h : unknown_substance_present widths = false) :
    entry_sizes widths true =
      ((kept_entries widths).map Prod.fst ++ [""],
        rescale ((kept_entries widths).map Prod.snd) ++ [4]) ∧
    (entry_sizes widths true).2.getLast? = some 4 := by
  have h1 : entry_sizes widths true =
      ((kept_entries widths).map Prod.fst ++ [""],
        rescale ((kept_entries widths).map Prod.snd) ++ [4]) := by
    simp [entry_sizes, h]
  refine ⟨h1, ?_⟩
  rw [h1]
  exact List.getLast?_concat _

/-- Witness for C8 (amended) on a single weight-5 entry. -/
theorem c8_synthetic_after_rescale_witness :
    entry_sizes [("1", (5 : ℚ))] true =
      ((kept_entries [("1", (5 : ℚ))]).map Prod.fst ++ [""],
        rescale ((kept_entries [("1", (5 : ℚ))]).map Prod.snd) ++ [4]) ∧
    (entry_sizes [("1", (5 : ℚ))] true).2.getLast? = some 4 :=
  c8_synthetic_after_rescale [("1", (5 : ℚ))]
    (by norm_num [unknown_substance_present, kept_entries,
      (show ¬(("1" : String) = "") from by decide)])

/-- C8 counterexample: on the single entry `("1", 5)` with the unestimated
flag set, the source order (rescale, then append the synthetic weight) and
the claimed order (append, then rescale, so the synthetic weight
participates in the ×10 loop) give different size lists — `[50, 4]` versus
`[50, 40]` — so the synthetic entry is not appended before the rescaling. -/
theorem c8_counterexample :
    entry_sizes [("1", (5 : ℚ))] true ≠ entry_sizes_spec_order [("1", (5 : ℚ))] true ∧
    entry_sizes [("1", (5 : ℚ))] true = (["1", ""], [50, 4]) ∧
    entry_sizes_spec_order [("1", (5 : ℚ))] true = (["1", ""], [50, 40]) := by
  have h1 : entry_sizes [("1", (5 : ℚ))] true = (["1", ""], [50, 4]) := by
    norm_num [entry_sizes, kept_entries, unknown_substance_present, rescale, rescale_fuel,
      rescale_go, List.min?, (show ¬(("1" : String) = "") from by decide)]
  have h2 : entry_sizes_spec_order [("1", (5 : ℚ))] true = (["1", ""], [50, 40]) := by
    norm_num [entry_sizes_spec_order, kept_entries, unknown_substance_present, rescale,
      rescale_fuel, rescale_go, List.min?, (show ¬(("1" : String) = "") from by decide)]
  refine ⟨?_, h1, h2⟩
  rw [h1, h2]
  norm_num [Prod.ext_iff]

/-! ### Lemmas on character-list splitting, for C9 -/

/-- An ascii digit is none of the qualifier / separator characters
`split_payload` treats specially. -/
theorem digit_ne_special {c : Char} (h : c.isDigit = true) :
    c ≠ '<' ∧ c ≠ '>' ∧ c ≠ '~' ∧ c ≠ ':' ∧ c ≠ '+' ∧ c ≠ '=' := by
  refine ⟨?_, ?_, ?_, ?_, ?_, ?_⟩ <;> (rintro rfl; revert h; decide)

/-- A list containing `c` contains the one-character pattern `[c]`. -/
theorem contains_sub_single {l : List Char} {c : Char} (h : c ∈ l) :
    contains_sub l [c] = true := by
  induction l with
  | nil => cases h
  | cons x r ih =>
    simp only [contains_sub, Bool.or_eq_true]
    rcases List.mem_cons.mp h with h | h
    · subst h
      left
      simp [starts_with]
    · right
      exact ih h

/-- `split_on_go` with a one-character separator absent from the input
walks the whole input into the accumulator. -/
theorem split_on_go_no_sep (c0 : Char) :
    ∀ (l acc : List Char) (fuel : Nat), l.length ≤ fuel → (∀ x ∈ l, x ≠ c0) →
      split_on_go fuel c0 [] l acc = [acc.reverse ++ l] := by
  intro l
  induction l with
  | nil => intro acc fuel _ _; cases fuel <;> simp [split_on_go]
  | cons x r ih =>
    intro acc fuel hf hx
    cases fuel with
    | zero => simp at hf
    | succ f =>
      simp only [split_on_go]
      split
      · next hcond =>
          exfalso
          revert hcond
          simp [starts_with, hx x (by simp)]
      · rw [ih (x :: acc) f (by simp at hf; omega)
          (fun y hy => hx y (List.mem_cons_of_mem _ hy))]
        simp
 
/-- `split_on_go` with a one-character separator occurring after a
separator-free first segment splits off exactly that segment. -/
theorem split_on_go_sep (c0 : Char) (db : List Char) (hdb : ∀ x ∈ db, x ≠ c0) :
    ∀ (da acc : List Char) (fuel : Nat), da.length + db.length + 1 ≤ fuel →
      (∀ x ∈ da, x ≠ c0) →
      split_on_go fuel c0 [] (da ++ c0 :: db) acc = [acc.reverse ++ da, db] := by
  intro da
  induction da with
  | nil =>
    intro acc fuel hf _
    cases fuel with
    | zero => simp at hf
    | succ f =>
      have hs : starts_with (c0 :: db) [c0] = true := by simp [starts_with]
      simp only [List.nil_append, split_on_go, hs, if_true, List.length_nil,
        List.drop_succ_cons, List.drop_zero]
      rw [split_on_go_no_sep c0 db [] f (by simp at hf; omega) hdb]
      simp
  | cons x r ih =>
    intro acc fuel hf hx
    cases fuel with
    | zero => simp at hf
    | succ f =>
      simp only [List.cons_append, split_on_go]
      split
      · next hcond =>
          exfalso
          revert hcond
          simp [starts_with, hx x (by simp)]
      · have h2 := ih (x :: acc) f (by simp at hf ⊢; omega)
          (fun y hy => hx y (List.mem_cons_of_mem _ hy))
        simpa using h2
 
/-- A nonempty all-digit character list parses as the number it denotes. -/
theorem parse_usize_digits (l : List Char) (h0 : l ≠ [])
    (h1 : ∀ x ∈ l, x.isDigit = true) :
    parse_usize l = some (digits_to_nat l) := by
  cases l with
  | nil => exact absurd rfl h0
  | cons c r =>
    have hc : c ≠ '+' := (digit_ne_special (h1 c (by simp))).2.2.2.2.1
    have hall : (c :: r).all Char.isDigit = true := by
      rw [List.all_eq_true]
      intro x hx
      exact h1 x hx
    simp [parse_usize, hc, hall]
 
/-- C9: when the value segment of a content token has the form `a:b` with
both endpoints nonempty digit strings, `split_payload`'s value computation
accepts it and stores the second endpoint `b` — not the midpoint and not
the larger endpoint (the endpoints may satisfy `a > b`); concretely,
`Content::from_str("15:10pp0")` stores value 10. -/
theorem c9_range_value_second_endpoint (payload da db : List Char)
    (hda0 : da ≠ []) (hdb0 : db ≠ [])
    (hda : ∀ x ∈ da, x.isDigit = true) (hdb : ∀ x ∈ db, x.isDigit = true) :
    parse_value payload (da ++ ':' :: db) = .ok (digits_to_nat db) ∧
    Content.from_str "15:10pp0" = .ok ⟨10, .PP, 0⟩ := by
  refine ⟨?_, by decide⟩
  cases da with
  | nil => exact absurd rfl hda0
  | cons d0 dr =>
    obtain ⟨hlt, hgt, htl, hcol, hplus, heq⟩ := digit_ne_special (hda d0 (by simp))
    have hc1 : starts_with (d0 :: (dr ++ ':' :: db)) ['<', '='] = false := by
      simp [starts_with, hlt]
    have hc2 : starts_with (d0 :: (dr ++ ':' :: db)) ['>', '='] = false := by
      simp [starts_with, hgt]
    have hc3 : starts_with (d0 :: (dr ++ ':' :: db)) ['~'] = false := by
      simp [starts_with, htl]
    have hc4 : starts_with (d0 :: (dr ++ ':' :: db)) ['<'] = false := by
      simp [starts_with, hlt]
    have hc5 : starts_with (d0 :: (dr ++ ':' :: db)) ['>'] = false := by
      simp [starts_with, hgt]
    have hcontains : contains_sub (d0 :: (dr ++ ':' :: db)) [':'] = true :=
      contains_sub_single (by simp)
    have hsplit : split_on [':'] (d0 :: (dr ++ ':' :: db)) = [d0 :: dr, db] := by
      have h := split_on_go_sep ':' db
        (fun x hx => ((digit_ne_special (hdb x hx)).2.2.2.1))
        (d0 :: dr) [] ((d0 :: dr) ++ ':' :: db).length
        (by simp only [List.length_append, List.length_cons]; omega)
        (fun x hx => ((digit_ne_special (hda x hx)).2.2.2.1))
      simpa [split_on] using h
    have hpa : parse_usize (d0 :: dr) = some (digits_to_nat (d0 :: dr)) :=
      parse_usize_digits _ (by simp) hda
    have hpb : parse_usize db = some (digits_to_nat db) :=
      parse_usize_digits _ hdb0 hdb
    simp only [List.cons_append, parse_value]
    simp [hc1, hc2, hc3, hc4, hc5, hcontains, hsplit, hpa, hpb]
 
/-- Witness for C9 on the value segment "15:10" (first endpoint larger). -/
theorem c9_range_value_second_endpoint_witness :
    parse_value [] (['1', '5'] ++ ':' :: ['1', '0']) = .ok (digits_to_nat ['1', '0']) ∧
    Content.from_str "15:10pp0" = .ok ⟨10, .PP, 0⟩ :=
  c9_range_value_second_endpoint [] ['1', '5'] ['1', '0']
    (by decide) (by decide) (by decide) (by decide)

/-! ### Lemmas on the rounding-correction loops, for C6 -/

/-- One stretching pass adds one pixel to each of the first
`min budget length` segments: the sum grows by exactly that amount, the
remaining budget shrinks by it, and the length is preserved. -/
theorem stretch_pass_spec : ∀ (l : List Nat) (d : Nat),
    (stretch_pass l d).1.sum = l.sum + min d l.length ∧
    (stretch_pass l d).2 = d - min d l.length ∧
    (stretch_pass l d).1.length = l.length := by
  intro l
  induction l with
  | nil => intro d; simp [stretch_pass]
  | cons a r ih =>
    intro d
    cases d with
    | zero => simp [stretch_pass]
    | succ d =>
      obtain ⟨h1, h2, h3⟩ := ih d
      simp only [stretch_pass, h1, h2, h3, List.sum_cons, List.length_cons,
        Nat.succ_min_succ]
      exact ⟨by omega, by omega, trivial⟩

/-- The stretching loop distributes its entire budget over a nonempty
segment list when the fuel covers the budget. -/
theorem stretch_go_sum (fuel : Nat) : ∀ (l : List Nat) (d : Nat), l ≠ [] → d ≤ fuel →
    (stretch_go fuel l d).sum = l.sum + d := by
  induction fuel with
  | zero =>
    intro l d _ hd
    have : d = 0 := by omega
    subst this
    cases l <;> simp [stretch_go]
  | succ f ih =>
    intro l d hl hd
    cases d with
    | zero => cases l <;> simp [stretch_go]
    | succ d =>
      obtain ⟨h1, h2, h3⟩ := stretch_pass_spec l (d + 1)
      have hlen : 0 < l.length := List.length_pos.mpr hl
      rcases hp : stretch_pass l (d + 1) with ⟨l2, d2⟩
      rw [hp] at h1 h2 h3
      simp only [stretch_go, hp]
      have hl2 : l2 ≠ [] := by
        intro hc
        rw [hc] at h3
        simp at h3
        omega
      rw [ih l2 d2 hl2 (by omega)]
      simp only [h1, h2]
      omega

/-- Distributing a constant scale over a list sum. -/
theorem sum_map_div_mul (c aw : ℚ) : ∀ (l : List ℚ),
    (l.map (fun s => s / c * aw)).sum = l.sum / c * aw := by
  intro l
  induction l with
  | nil => simp
  | cons a r ih =>
    simp only [List.map_cons, List.sum_cons, ih, add_div, add_mul]

/-- C6: for every nonempty list of positive (already-logarithmed) weights
and every available span between 10 and 2000 pixels, the truncated
log-proportional allocation followed by the one-pixel correction loops
produces integer widths summing exactly to the available span.  (The
natural-log outputs are modelled as arbitrary positive rationals: after
the ×10 rescaling every weight exceeds 10, so its logarithm is positive.) -/
theorem c6_bar_widths_sum_exact (available_width : Nat) (ln_sizes : List ℚ)
    (h0 : ln_sizes ≠ []) (h1 : ∀ x ∈ ln_sizes, 0 < x)
    (hlo : 10 ≤ available_width) (hhi : available_width ≤ 2000) :
    (draw_sizes available_width ln_sizes).sum = available_width := by
  have hS : 0 < ln_sizes.sum := List.sum_pos ln_sizes h1 h0
  have hSne : ln_sizes.sum ≠ 0 := ne_of_gt hS
  -- the truncated allocation never exceeds the span
  have hbound : (allocate available_width ln_sizes).sum ≤ available_width := by
    have hcast : ((allocate available_width ln_sizes).sum : ℚ) =
        (ln_sizes.map
          (fun s => ((⌊s / ln_sizes.sum * (available_width : ℚ)⌋).toNat : ℚ))).sum := by
      rw [allocate, Nat.cast_list_sum, List.map_map]
      rfl
    have hterm : ∀ s ∈ ln_sizes,
        ((⌊s / ln_sizes.sum * (available_width : ℚ)⌋).toNat : ℚ) ≤
          s / ln_sizes.sum * (available_width : ℚ) := by
      intro s hs
      have hq : (0 : ℚ) ≤ s / ln_sizes.sum * (available_width : ℚ) := by
        have := le_of_lt (h1 s hs)
        positivity
      have hfl : (0 : Int) ≤ ⌊s / ln_sizes.sum * (available_width : ℚ)⌋ :=
        Int.floor_nonneg.mpr hq
      have hcn : (((⌊s / ln_sizes.sum * (available_width : ℚ)⌋).toNat : ℕ) : ℚ) =
          ((⌊s / ln_sizes.sum * (available_width : ℚ)⌋ : ℤ) : ℚ) := by
        exact_mod_cast congrArg (fun z : ℤ => (z : ℚ)) (Int.toNat_of_nonneg hfl)
      exact le_trans (le_of_eq hcn) (Int.floor_le (s / ln_sizes.sum * (available_width : ℚ)))
    have hsum_le : ((allocate available_width ln_sizes).sum : ℚ) ≤
        (ln_sizes.map (fun s => s / ln_sizes.sum * (available_width : ℚ))).sum := by
      rw [hcast]
      exact List.sum_le_sum hterm
    have hmap := sum_map_div_mul ln_sizes.sum (available_width : ℚ) ln_sizes
    rw [hmap, div_self hSne, one_mul] at hsum_le
    exact_mod_cast hsum_le
  have halloc_ne : allocate available_width ln_sizes ≠ [] := by
    simp only [allocate, ne_eq, List.map_eq_nil_iff]
    exact h0
  rw [draw_sizes, correct_sizes]
  rw [if_pos hbound]
  rw [stretch_go_sum _ _ _ halloc_ne (le_refl _)]
  omega

/-- Witness for C6 on weights `[3, 5, 7]` over a 100-pixel span. -/
theorem c6_bar_widths_sum_exact_witness :
    (draw_sizes 100 [(3 : ℚ), 5, 7]).sum = 100 :=
  c6_bar_widths_sum_exact 100 [(3 : ℚ), 5, 7] (by simp)
    (by intro x hx; fin_cases hx <;> norm_num) (by omega) (by omega)

/-! ### C7: the redundant outer wrapper -/

/-- Unfolding of `tokenize_string` on an input whose first character
matches the expected prefix. -/
theorem tokenize_string_cons_self (start : Char) (rest : List Char) :
    tokenize_string (start :: rest) start =
      (fun strip =>
        (parse_group (2 * (if strip then (rest.drop 1).dropLast else rest).length + 2)
          (if strip then (rest.drop 1).dropLast else rest)).1) <$> check_wrapper rest := by
  simp [tokenize_string]

/-- C7 (amended): stripping a redundant outer brace pair is transparent
provided the unwrapped remainder is not itself strippable: if the
post-prefix remainder is `{mid}` with braces matching and the first group
covering the whole payload (so `check_wrapper` answers `true`), and `mid`
itself validates but is not strippable (`check_wrapper` answers `false`),
then tokenizing the prefixed input equals tokenizing the prefix followed
by `mid`. -/
theorem c7_outer_wrapper_transparent (start : Char) (mid : List Char)
    (hr : check_wrapper ('{' :: (mid ++ ['}'])) = .ok true)
    (hm : check_wrapper mid = .ok false) :
    tokenize_string (start :: '{' :: (mid ++ ['}'])) start =
      tokenize_string (start :: mid) start := by
  rw [tokenize_string_cons_self start ('{' :: (mid ++ ['}'])),
    tokenize_string_cons_self start mid, hr, hm]
  have hdrop : (('{' :: (mid ++ ['}'])).drop 1).dropLast = mid := by
    show (mid ++ ['}']).dropLast = mid
    exact List.dropLast_concat
  simp [hdrop]

/-- Witness for C7 (amended) at the claim's own instance:
`tokenize("n{1&{2&3}&4}", 'n') = tokenize("n1&{2&3}&4", 'n')`. -/
theorem c7_outer_wrapper_transparent_witness :
    tokenize_string
      ('n' :: '{' :: (['1', '&', '{', '2', '&', '3', '}', '&', '4'] ++ ['}'])) 'n' =
      tokenize_string ('n' :: ['1', '&', '{', '2', '&', '3', '}', '&', '4']) 'n' :=
  c7_outer_wrapper_transparent 'n' ['1', '&', '{', '2', '&', '3', '}', '&', '4']
    (by decide) (by decide)

/-- C7 counterexample: the doubly wrapped input `n{{1}}` satisfies the
claim's strip conditions — the remainder `{{1}}` starts with a brace, ends with a
brace, and its first group covers the entire payload — yet tokenizing it
does not equal tokenizing `n{1}`: the wrapper is stripped only once, so the
left side keeps one nested group that re-tokenizing the unwrapped input
strips again. -/
theorem c7_counterexample :
    check_wrapper ['{', '{', '1', '}', '}'] = .ok true ∧
    tokenize_string ['n', '{', '{', '1', '}', '}'] 'n' ≠
      tokenize_string ['n', '{', '1', '}'] 'n' := by
  refine ⟨by decide, ?_⟩
  intro h
  have h1 : tokenize_string ['n', '{', '{', '1', '}', '}'] 'n' =
      .ok ⟨[.group [.token "1"] none], none⟩ := rfl
  have h2 : tokenize_string ['n', '{', '1', '}'] 'n' = .ok ⟨[.token "1"], none⟩ := rfl
  rw [h1, h2] at h
  simp at h


/-! ### C2: structural round-trip of the tree combiner -/

/-- A combine outcome that is not a structure-mismatch failure (it may be
a success or a propagated content-format failure). -/
def not_mismatch {α : Type} (x : Except CombineError α) : Prop :=
  ∀ e, x = .error e → is_structure_mismatch e = false

/-- `create_substance` never fails with a structure-mismatch error: its
only failure is a propagated content parse error. -/
theorem create_substance_not_mismatch (t1 t2 : String) :
    ∀ e, create_substance t1 t2 = .error e → is_structure_mismatch e = false := by
  intro e he
  unfold create_substance at he
  by_cases ht : t2 = ""
  · simp [ht, pure, Except.pure, Bind.bind, Except.bind] at he
  · cases hfs : Content.from_str t2 with
    | ok c => simp [ht, hfs, pure, Except.pure, Bind.bind, Except.bind] at he
    | error pe =>
      simp [ht, hfs, Bind.bind, Except.bind] at he
      rw [← he]
      rfl

/-- Shape-equal component lists have equal lengths. -/
theorem same_shape_length : ∀ (l1 l2 : List Component),
    same_shape_l l1 l2 = true → l1.length = l2.length := by
  intro l1
  induction l1 with
  | nil =>
    intro l2 h
    cases l2 with
    | nil => rfl
    | cons b r2 => cases b <;> simp [same_shape_l] at h
  | cons a r1 ih =>
    intro l2 h
    cases l2 with
    | nil => cases a <;> simp [same_shape_l] at h
    | cons b r2 =>
      cases a <;> cases b <;> simp [same_shape_l] at h
      · simp [List.length_cons, ih r2 h]
      · simp [List.length_cons, ih r2 h.2]

/-- Main induction for C2, over the size of the indexing side: shape-equal
inputs never produce a structure-mismatch failure, and a successful
combination certifies shape equality (so shape-unequal inputs always
fail). -/
theorem combine_shape_aux : ∀ (n : Nat),
    (∀ (l1 l2 : List Component), sizeOf l1 ≤ n →
      (same_shape_l l1 l2 = true → not_mismatch (combine_pairs l1 l2)) ∧
      (∀ r, combine_pairs l1 l2 = .ok r → l1.length = l2.length → same_shape_l l1 l2 = true) ∧
      (same_shape_l l1 l2 = true → not_mismatch (combine_components l1 l2)) ∧
      (∀ r, combine_components l1 l2 = .ok r → same_shape_l l1 l2 = true)) ∧
    (∀ (g1 g2 : Group), sizeOf g1.components ≤ n →
      (same_shape_g g1 g2 = true → not_mismatch (combine_groups g1 g2)) ∧
      (∀ m, combine_groups g1 g2 = .ok m → same_shape_g g1 g2 = true)) := by
  intro n
  induction n with
  | zero =>
    constructor
    · intro l1 l2 h
      exfalso
      cases l1 <;> simp at h
    · intro g1 g2 h
      exfalso
      rcases g1 with ⟨comps, v⟩
      cases comps <;> simp at h
  | succ n ih =>
    obtain ⟨ihl, ihg⟩ := ih
    have hlist : ∀ (l1 l2 : List Component), sizeOf l1 ≤ n + 1 →
        (same_shape_l l1 l2 = true → not_mismatch (combine_pairs l1 l2)) ∧
        (∀ r, combine_pairs l1 l2 = .ok r → l1.length = l2.length →
          same_shape_l l1 l2 = true) ∧
        (same_shape_l l1 l2 = true → not_mismatch (combine_components l1 l2)) ∧
        (∀ r, combine_components l1 l2 = .ok r → same_shape_l l1 l2 = true) := by
      intro l1 l2 hn
      have hpairs : (same_shape_l l1 l2 = true → not_mismatch (combine_pairs l1 l2)) ∧
          (∀ r, combine_pairs l1 l2 = .ok r → l1.length = l2.length →
            same_shape_l l1 l2 = true) := by
        cases l1 with
        | nil =>
          cases l2 with
          | nil =>
            refine ⟨?_, ?_⟩
            · intro _ e he
              simp [combine_pairs] at he
            · intro r _ _
              simp [same_shape_l]
          | cons b r2 =>
            refine ⟨?_, ?_⟩
            · intro hs
              cases b <;> simp [same_shape_l] at hs
            · intro r _ hlen
              simp at hlen
        | cons a r1 =>
          cases l2 with
          | nil =>
            refine ⟨?_, ?_⟩
            · intro hs
              cases a <;> simp [same_shape_l] at hs
            · intro r _ hlen
              simp at hlen
          | cons b r2 =>
            have hr1 : sizeOf r1 ≤ n := by
              have ha : 0 < sizeOf a := by cases a <;> simp_arith
              simp at hn
              omega
            cases a with
            | token t1 =>
              cases b with
              | token t2 =>
                refine ⟨?_, ?_⟩
                · intro hs e he
                  have hs2 : same_shape_l r1 r2 = true := by
                    simpa [same_shape_l] using hs
                  simp only [combine_pairs] at he
                  cases hcs : create_substance t1 t2 with
                  | error e1 =>
                    simp [hcs, Bind.bind, Except.bind] at he
                    subst he
                    exact create_substance_not_mismatch t1 t2 _ hcs
                  | ok s =>
                    cases hrest : combine_pairs r1 r2 with
                    | error e2 =>
                      simp [hcs, hrest, Bind.bind, Except.bind] at he
                      subst he
                      exact (ihl r1 r2 hr1).1 hs2 _ hrest
                    | ok rr =>
                      simp [hcs, hrest, Bind.bind, Except.bind, pure, Except.pure] at he
                · intro r hok hlen
                  simp only [combine_pairs] at hok
                  cases hcs : create_substance t1 t2 with
                  | error e1 => simp [hcs, Bind.bind, Except.bind] at hok
                  | ok s =>
                    cases hrest : combine_pairs r1 r2 with
                    | error e2 => simp [hcs, hrest, Bind.bind, Except.bind] at hok
                    | ok rr =>
                      have hrest2 := (ihl r1 r2 hr1).2.1 rr hrest (by simpa using hlen)
                      simp [same_shape_l, hrest2]
              | group g2c g2v =>
                refine ⟨?_, ?_⟩
                · intro hs
                  simp [same_shape_l] at hs
                · intro r hok hlen
                  simp only [combine_pairs] at hok
                  simp [Bind.bind, Except.bind] at hok
            | group g1c g1v =>
              cases b with
              | token t2 =>
                refine ⟨?_, ?_⟩
                · intro hs
                  simp [same_shape_l] at hs
                · intro r hok hlen
                  simp only [combine_pairs] at hok
                  simp [Bind.bind, Except.bind] at hok
              | group g2c g2v =>
                have hsg : sizeOf g1c ≤ n := by
                  simp at hn
                  omega
                refine ⟨?_, ?_⟩
                · intro hs e he
                  have hs12 : same_shape_l g1c g2c = true ∧ same_shape_l r1 r2 = true := by
                    simpa [same_shape_l] using hs
                  simp only [combine_pairs] at he
                  cases hcg : combine_groups ⟨g1c, g1v⟩ ⟨g2c, g2v⟩ with
                  | error e1 =>
                    simp [hcg, Bind.bind, Except.bind] at he
                    subst he
                    exact (ihg ⟨g1c, g1v⟩ ⟨g2c, g2v⟩ hsg).1
                      (by simpa [same_shape_g] using hs12.1) _ hcg
                  | ok ing =>
                    cases hrest : combine_pairs r1 r2 with
                    | error e2 =>
                      simp [hcg, hrest, Bind.bind, Except.bind] at he
                      subst he
                      exact (ihl r1 r2 hr1).1 hs12.2 _ hrest
                    | ok rr =>
                      simp [hcg, hrest, Bind.bind, Except.bind, pure, Except.pure] at he
                · intro r hok hlen
                  simp only [combine_pairs] at hok
                  cases hcg : combine_groups ⟨g1c, g1v⟩ ⟨g2c, g2v⟩ with
                  | error e1 => simp [hcg, Bind.bind, Except.bind] at hok
                  | ok ing =>
                    cases hrest : combine_pairs r1 r2 with
                    | error e2 => simp [hcg, hrest, Bind.bind, Except.bind] at hok
                    | ok rr =>
                      have hinner : same_shape_l g1c g2c = true := by
                        simpa [same_shape_g] using
                          (ihg ⟨g1c, g1v⟩ ⟨g2c, g2v⟩ hsg).2 ing hcg
                      have hrest2 := (ihl r1 r2 hr1).2.1 rr hrest (by simpa using hlen)
                      simp [same_shape_l, hinner, hrest2]
      refine ⟨hpairs.1, hpairs.2, ?_, ?_⟩
      · intro hs e he
        have hlen := same_shape_length l1 l2 hs
        simp only [combine_components] at he
        rw [if_neg (by omega)] at he
        exact hpairs.1 hs e he
      · intro r hok
        simp only [combine_components] at hok
        by_cases hlen : l1.length ≠ l2.length
        · rw [if_pos hlen] at hok
          exact Except.noConfusion hok
        · rw [if_neg hlen] at hok
          exact hpairs.2 r hok (by omega)
    refine ⟨hlist, ?_⟩
    intro g1 g2 hsz
    obtain ⟨hA, hB, hCompA, hCompB⟩ := hlist g1.components g2.components hsz
    constructor
    · intro hs e he
      simp only [combine_groups] at he
      cases hcc : combine_components g1.components g2.components with
      | error e1 =>
        simp [hcc, Bind.bind, Except.bind] at he
        subst he
        exact hCompA (by simpa [same_shape_g] using hs) _ hcc
      | ok ings =>
        cases hv : g2.value with
        | none =>
          simp [hcc, hv, Bind.bind, Except.bind, pure, Except.pure] at he
        | some v =>
          cases hfs : Content.from_str v with
          | ok c =>
            simp [hcc, hv, hfs, Bind.bind, Except.bind, pure, Except.pure] at he
          | error pe =>
            simp [hcc, hv, hfs, Bind.bind, Except.bind] at he
            rw [← he]
            rfl
    · intro m hok
      simp only [combine_groups] at hok
      cases hcc : combine_components g1.components g2.components with
      | error e1 => simp [hcc, Bind.bind, Except.bind] at hok
      | ok ings =>
        simpa [same_shape_g] using hCompB ings hcc

/-- C2 (amended): combining an indexing tree and a concentration tree of
identical shape never fails with a structure-mismatch error (it may still
fail with a content-format error), and combining trees of differing shape
always fails — but the failure reported need not be a structure-mismatch
error: a content-format failure at an earlier position may be reported
instead. -/
theorem c2_combine_structure (g1 g2 : Group) :
    (same_shape_g g1 g2 = true →
      ∀ e, combine_groups g1 g2 = .error e → is_structure_mismatch e = false) ∧
    (same_shape_g g1 g2 = false → ∀ m, combine_groups g1 g2 ≠ .ok m) := by
  obtain ⟨hA, hB⟩ := (combine_shape_aux (sizeOf g1.components)).2 g1 g2 (le_refl _)
  refine ⟨fun hs e he => hA hs e he, fun hs m hok => ?_⟩
  rw [hB m hok] at hs
  exact Bool.noConfusion hs

/-- Witness for C2 on a shape-equal pair whose combine fails with a
content error: the reported error is not a structure mismatch. -/
theorem c2_witness :
    is_structure_mismatch (CombineError.content (ParseError.invalidInfix ['z', 'z'])) = false := by
  have hf : Content.from_str "zz" = .error (.invalidInfix ['z', 'z']) := by decide
  have hg : combine_groups ⟨[.token "1"], none⟩ ⟨[.token "zz"], none⟩ =
      .error (.content (.invalidInfix ['z', 'z'])) := by
    simp [combine_groups, combine_components, combine_pairs, create_substance, hf,
      Bind.bind, Except.bind, pure, Except.pure,
      (show ¬(("zz" : String) = "") from by decide)]
  exact (c2_combine_structure ⟨[.token "1"], none⟩ ⟨[.token "zz"], none⟩).1
    (by simp [same_shape_g, same_shape_l]) _ hg

/-- C2 counterexample: these two component lists differ in shape at
position 1 (token versus group), yet combining fails with a content-format
error — the invalid token "zz" at position 0 is reported before the shape
mismatch is ever reached — so differing shape does not always produce a
structure-mismatch error. -/
theorem c2_counterexample :
    same_shape_l [Component.token "1", Component.token "2"]
      [Component.token "zz", Component.group [] none] = false ∧
    combine_components [Component.token "1", Component.token "2"]
      [Component.token "zz", Component.group [] none] =
      .error (.content (.invalidInfix ['z', 'z'])) ∧
    is_structure_mismatch (CombineError.content (.invalidInfix ['z', 'z'])) = false := by
  have hf : Content.from_str "zz" = .error (.invalidInfix ['z', 'z']) := by decide
  refine ⟨by simp [same_shape_l], ?_, rfl⟩
  simp [combine_components, combine_pairs, create_substance, hf, Bind.bind, Except.bind,
    pure, Except.pure, (show ¬(("zz" : String) = "") from by decide)]

/-! ### C1: the single-unknown-child remainder -/

/-- C1: at a mixture level with exactly one content-less direct child, all
present contents sharing the one concentration kind `k`, values at the
minimum observed magnitude summing to `s`, and capacity `c` with `s < c`,
the width calculation assigns that single unknown child the entire
remainder `c − s` as its quantity (`default_width`), pushes no synthetic
entry, and the width emitted for the unknown substance child is the
remainder divided by the sum of known values, `(c − s) / s`. -/
theorem c1_single_unknown_remainder (components : List Ingredient)
    (k : Concentration) (m : Int) (s c : Nat) (u : Bool) (idx : Option String)
    (hseen : seen_concentrations components = [k])
    (hmin : min_magnitude components k = some m)
    (hsum : sum_values components m = .ok s)
    (hcap : capacity_value k m s = .ok (c, u))
    (hu : unknown_count components = 1)
    (hlt : s < c) :
    level_params components =
      .ok ⟨k, m, s, c, u, ((c - s : Nat) : ℚ), []⟩ ∧
    emit_one ((c - s : Nat) : ℚ) s m (Ingredient.substance idx none) =
      .ok ([(idx.getD "", ((c - s : Nat) : ℚ) / (s : ℚ))], false) := by
  have hclass : classify_case 1 s c = .singleUnknown := by
    unfold classify_case
    rw [if_neg (by omega), if_pos ⟨rfl, hlt⟩]
  constructor
  · unfold level_params
    rw [hseen]
    simp only [List.length_cons, List.length_nil]
    rw [if_neg (by omega)]
    simp only [Bind.bind, Except.bind, hmin, hsum, hcap, hu, hclass, pure, Except.pure,
      default_width_of, synthetic_of]
    simp
  · simp only [emit_one, Bind.bind, Except.bind, pure, Except.pure]

/-- Witness for C1 on the level `{30pp0 & unknown}`: the unknown substance
(index "2") receives quantity 70 and emitted width 70/30. -/
theorem c1_single_unknown_remainder_witness :
    level_params
      [Ingredient.substance (some "1") (some ⟨30, .PP, 0⟩),
       Ingredient.substance (some "2") none] =
      .ok ⟨.PP, 0, 30, 100, false, ((100 - 30 : Nat) : ℚ), []⟩ ∧
    emit_one ((100 - 30 : Nat) : ℚ) 30 0 (Ingredient.substance (some "2") none) =
      .ok ([("2", ((100 - 30 : Nat) : ℚ) / ((30 : Nat) : ℚ))], false) :=
  c1_single_unknown_remainder
    [Ingredient.substance (some "1") (some ⟨30, .PP, 0⟩),
     Ingredient.substance (some "2") none]
    .PP 0 30 100 false (some "2")
    (by decide) (by decide) (by decide) (by decide) (by decide) (by decide)

end Moleco
